import Mathlib

/-!
Verification of the pyclingo term/AST library: a shallow embedding of the
term model (values, expressions, comparisons, predicates, pools, negations,
aggregates, choice rules, conditional literals), the program assembly layer
(segments, symbolic constants, render-time validation) and the pool
conversion helper, together with theorems settling the specification claims.

Each definition is translated from the corresponding Python source file of
the repository (pyclingo/operators.py, expression.py, value.py,
predicate.py, pool.py, negation.py, aggregates.py, choice.py,
conditional_literal.py, program_elements.py, solver.py).

Literal braces in strings are written with the escapes \x7b and \x7d, and
apostrophes with \x27.
-/

namespace PyClingo

/-- Arithmetic operations, from `Operation` in operators.py. -/
inductive Operation where
  | add
  | subtract
  | multiply
  | integerDivide
  | unaryMinus
  | abs
deriving DecidableEq, Repr

/-- The `.value` strings of the `Operation` enum in operators.py. -/
def Operation.value : Operation → String
  | .add => "+"
  | .subtract => "-"
  | .multiply => "*"
  | .integerDivide => "/"
  | .unaryMinus => "unary-"
  | .abs => "abs"

/-- `UNARY_OPERATIONS` from operators.py, as a membership test. -/
def Operation.isUnary : Operation → Bool
  | .unaryMinus => true
  | .abs => true
  | _ => false

/-- `BINARY_OPERATIONS` from operators.py, as a membership test. -/
def Operation.isBinary : Operation → Bool
  | .add => true
  | .subtract => true
  | .multiply => true
  | .integerDivide => true
  | _ => false

/-- The non-commutative-operations set from operators.py
(`SUBTRACT` and `INTEGER_DIVIDE`). -/
def Operation.isNoncommutative : Operation → Bool
  | .subtract => true
  | .integerDivide => true
  | _ => false

/-- `PRECEDENCE` from operators.py (lower number = higher precedence).
The source dictionary has no entry for ABS; `Expression.render` never looks
ABS up (it is handled before the table is consulted and passes no parent
operator down), so the value returned for ABS here is never used. -/
def Operation.precedence : Operation → Nat
  | .unaryMinus => 0
  | .multiply => 1
  | .integerDivide => 1
  | .add => 2
  | .subtract => 2
  | .abs => 0

/-- Comparison operators, from `ComparisonOperator` in operators.py. -/
inductive ComparisonOperator where
  | equal
  | notEqual
  | lessThan
  | lessEqual
  | greaterThan
  | greaterEqual
deriving DecidableEq, Repr

/-- The `.value` strings of `ComparisonOperator` in operators.py. -/
def ComparisonOperator.value : ComparisonOperator → String
  | .equal => "="
  | .notEqual => "!="
  | .lessThan => "<"
  | .lessEqual => "<="
  | .greaterThan => ">"
  | .greaterEqual => ">="

/-- Aggregate function kinds, from `AggregateType` in aggregates.py. -/
inductive AggregateType where
  | count
  | sum
  | sumPlus
  | min
  | max
deriving DecidableEq, Repr

/-- The `.value` strings of `AggregateType` in aggregates.py. -/
def AggregateType.value : AggregateType → String
  | .count => "#count"
  | .sum => "#sum"
  | .sumPlus => "#sum+"
  | .min => "#min"
  | .max => "#max"

/-- `RenderingContext` from term.py. -/
inductive RenderingContext where
  | default
  | lonePredicateArgument
  | negation
  | inExpression
deriving DecidableEq, Repr

mutual
/-- The term model: one constructor per concrete `Term` class of the
pyclingo package.  `expr1` is a unary `Expression` (`first_term is None`),
`expr2` a binary one.  Aggregate and choice element lists, and argument
lists, are represented by the companion inductives below (isomorphic to
Lean lists, kept in the mutual block). -/
inductive PTerm where
  | var (name : String)
  | num (value : Int)
  | strc (value : String)
  | sym (name : String)
  | pred (name : String) (args : TermList)
  | expr1 (op : Operation) (arg : PTerm)
  | expr2 (lhs : PTerm) (op : Operation) (rhs : PTerm)
  | cmp (lhs : PTerm) (op : ComparisonOperator) (rhs : PTerm)
  | rangePool (lo hi : PTerm)
  | explicitPool (elems : TermList)
  | defNeg (t : PTerm)
  | classNeg (t : PTerm)
  | agg (ty : AggregateType) (elems : AggElems)
  | choice (elems : ChoiceElems) (minCard maxCard : OptCard)
  | condLit (head : PTerm) (conds : TermList)

/-- A list of terms (arguments, conditions, pool elements). -/
inductive TermList where
  | nil
  | cons (head : PTerm) (tail : TermList)

/-- Aggregate clauses: each holds an element tuple and a condition list,
as in `Aggregate._elements` of aggregates.py. -/
inductive AggElems where
  | nil
  | cons (terms : TermList) (conds : TermList) (tail : AggElems)

/-- Choice clauses: each holds one element and a condition list, as in
`Choice._elements` of choice.py. -/
inductive ChoiceElems where
  | nil
  | cons (element : PTerm) (conds : TermList) (tail : ChoiceElems)

/-- An optional cardinality bound (`None | Value` in choice.py). -/
inductive OptCard where
  | unset
  | set (v : PTerm)
end

mutual
/-- `render` of the pyclingo term classes.  The three extra parameters are
the ones threaded through expression rendering in expression.py
(`context`, `parent_op`, `is_right_operand`); classes whose Python `render`
does not take them ignore them, exactly as the Python methods do.  The
`as_argument` flag appearing in some Python signatures is never read by
any implementation and is not modelled. -/
def render (t : PTerm) (ctx : RenderingContext) (parentOp : Option Operation)
    (isRight : Bool) : String :=
  match t, ctx, parentOp, isRight with
  | .var n, _, _, _ => n
  | .num v, _, _, _ => toString v
  | .strc s, _, _, _ => "\"" ++ s ++ "\""
  | .sym s, _, _, _ => s
  | .pred n args, _, _, _ =>
      match args with
      | .nil => n
      | .cons a t => n ++ "(" ++ renderCommaList (.cons a t) ++ ")"
  | .expr1 op t, _, parentOp, _ =>
      match op with
      | .abs => "|" ++ render t .default none false ++ "|"
      | _ =>
          -- Operation.UNARY_MINUS (the only other constructible unary op)
          let secondStr := render t .default (some .unaryMinus) false
          let e := "-" ++ secondStr
          match parentOp with
          | some _ => "(" ++ e ++ ")"
          | none => e
  | .expr2 l op r, _, parentOp, isRight =>
      let firstStr := render l .inExpression (some op) false
      let secondStr := render r .inExpression (some op) true
      let e := firstStr ++ " " ++ op.value ++ " " ++ secondStr
      let needsParens : Bool :=
        match parentOp with
        | none => false
        | some p =>
            let cur := op.precedence
            let par := p.precedence
            if cur < par then true
            else if par < cur then false
            else
              let base := if p.isNoncommutative then isRight else false
              if op == .integerDivide && p == .multiply then isRight else base
      if needsParens then "(" ++ e ++ ")" else e
  | .cmp l op r, ctx, _, _ =>
      let e := render l .default none false ++ " " ++ op.value ++ " "
        ++ render r .default none false
      if ctx == .negation then "(" ++ e ++ ")" else e
  | .rangePool lo hi, _, _, _ =>
      render lo .default none false ++ ".." ++ render hi .default none false
  | .explicitPool elems, ctx, _, _ =>
      let s := renderSemiList elems
      if ctx == .lonePredicateArgument then s else "(" ++ s ++ ")"
  | .defNeg t, _, _, _ => "not " ++ render t .default none false
  | .classNeg t, _, _, _ => "-" ++ render t .default none false
  | .agg ty elems, _, _, _ =>
      ty.value ++ "\x7b" ++ renderAggElems elems ++ "\x7d"
  | .choice elems lo hi, _, _, _ =>
      let pre :=
        match lo, hi with
        | .set a, .set b =>
            let minS := render a .default none false
            let maxS := render b .default none false
            if minS == maxS then "" else minS ++ " "
        | .set a, .unset => render a .default none false ++ " "
        | .unset, _ => ""
      let suf :=
        match lo, hi with
        | .set a, .set b =>
            let minS := render a .default none false
            let maxS := render b .default none false
            if minS == maxS then " = " ++ minS else " " ++ maxS
        | .set _, .unset => ""
        | .unset, .set b => " " ++ render b .default none false
        | .unset, .unset => ""
      pre ++ "\x7b " ++ renderChoiceElems elems ++ " \x7d" ++ suf
  | .condLit h conds, _, _, _ =>
      render h .default none false ++ " : " ++ renderCommaList conds
termination_by structural t

/-- `", ".join(t.render() for t in ts)` (predicate arguments, aggregate
element tuples, condition lists). -/
def renderCommaList (ts : TermList) : String :=
  match ts with
  | .nil => ""
  | .cons t .nil => render t .default none false
  | .cons t (.cons u v) =>
      render t .default none false ++ ", " ++ renderCommaList (.cons u v)
termination_by structural ts

/-- `"; ".join(e.render() for e in elems)` (explicit pool elements). -/
def renderSemiList (ts : TermList) : String :=
  match ts with
  | .nil => ""
  | .cons t .nil => render t .default none false
  | .cons t (.cons u v) =>
      render t .default none false ++ "; " ++ renderSemiList (.cons u v)
termination_by structural ts

/-- The element clauses of `Aggregate.render` in aggregates.py:
clauses joined by `"; "`, each a comma-joined tuple, followed by
`" : "` and the comma-joined conditions when conditions are present. -/
def renderAggElems (es : AggElems) : String :=
  match es with
  | .nil => ""
  | .cons terms conds tail =>
      let clause :=
        match conds with
        | .nil => renderCommaList terms
        | .cons c cs =>
            renderCommaList terms ++ " : " ++ renderCommaList (.cons c cs)
      match tail with
      | .nil => clause
      | .cons a b c => clause ++ "; " ++ renderAggElems (.cons a b c)
termination_by structural es

/-- The element clauses of `Choice.render` in choice.py. -/
def renderChoiceElems (es : ChoiceElems) : String :=
  match es with
  | .nil => ""
  | .cons el conds tail =>
      let clause :=
        match conds with
        | .nil => render el .default none false
        | .cons c cs =>
            render el .default none false ++ " : " ++ renderCommaList (.cons c cs)
      match tail with
      | .nil => clause
      | .cons a b c => clause ++ "; " ++ renderChoiceElems (.cons a b c)
termination_by structural es
end

/-- Rendering with the default arguments of the Python `render` methods. -/
def renderD (t : PTerm) : String :=
  render t .default none false

mutual
/-- The `is_grounded` property of each pyclingo term class:
variables are never grounded (value.py), constants always are (value.py),
a unary expression checks its only operand and a binary one both
(expression.py), comparisons both sides (expression.py), predicates all
arguments (predicate.py), both pool classes return `True` unconditionally
(pool.py), negations their inner term (negation.py), aggregates every
element and condition (aggregates.py), choices every element, condition
and set cardinality bound (choice.py), conditional literals head and
conditions (conditional_literal.py). -/
def isGrounded (t : PTerm) : Bool :=
  match t with
  | .var _ => false
  | .num _ => true
  | .strc _ => true
  | .sym _ => true
  | .pred _ args => allGrounded args
  | .expr1 _ arg => isGrounded arg
  | .expr2 l _ r => isGrounded l && isGrounded r
  | .cmp l _ r => isGrounded l && isGrounded r
  | .rangePool _ _ => true
  | .explicitPool _ => true
  | .defNeg u => isGrounded u
  | .classNeg u => isGrounded u
  | .agg _ elems => aggAllGrounded elems
  | .choice elems lo hi =>
      choiceAllGrounded elems && cardGrounded lo && cardGrounded hi
  | .condLit h conds => isGrounded h && allGrounded conds
termination_by structural t

/-- All terms of a list grounded. -/
def allGrounded (ts : TermList) : Bool :=
  match ts with
  | .nil => true
  | .cons t rest => isGrounded t && allGrounded rest
termination_by structural ts

/-- All aggregate clauses grounded (`Aggregate.is_grounded`). -/
def aggAllGrounded (es : AggElems) : Bool :=
  match es with
  | .nil => true
  | .cons terms conds rest =>
      allGrounded terms && allGrounded conds && aggAllGrounded rest
termination_by structural es

/-- All choice clauses grounded (`Choice.is_grounded`). -/
def choiceAllGrounded (es : ChoiceElems) : Bool :=
  match es with
  | .nil => true
  | .cons el conds rest =>
      isGrounded el && allGrounded conds && choiceAllGrounded rest
termination_by structural es

/-- An unset cardinality bound passes; a set one is checked
(`Choice.is_grounded` in choice.py). -/
def cardGrounded (c : OptCard) : Bool :=
  match c with
  | .unset => true
  | .set v => isGrounded v
termination_by structural c
end

mutual
/-- The specification's notion: the term's transitive subtree holds at
least one `Variable` leaf. -/
def containsVariable (t : PTerm) : Bool :=
  match t with
  | .var _ => true
  | .num _ => false
  | .strc _ => false
  | .sym _ => false
  | .pred _ args => anyVariable args
  | .expr1 _ arg => containsVariable arg
  | .expr2 l _ r => containsVariable l || containsVariable r
  | .cmp l _ r => containsVariable l || containsVariable r
  | .rangePool lo hi => containsVariable lo || containsVariable hi
  | .explicitPool elems => anyVariable elems
  | .defNeg u => containsVariable u
  | .classNeg u => containsVariable u
  | .agg _ elems => aggAnyVariable elems
  | .choice elems lo hi =>
      choiceAnyVariable elems || cardHasVariable lo || cardHasVariable hi
  | .condLit h conds => containsVariable h || anyVariable conds
termination_by structural t

/-- Some term of the list holds a variable. -/
def anyVariable (ts : TermList) : Bool :=
  match ts with
  | .nil => false
  | .cons t rest => containsVariable t || anyVariable rest
termination_by structural ts

/-- Some aggregate clause holds a variable. -/
def aggAnyVariable (es : AggElems) : Bool :=
  match es with
  | .nil => false
  | .cons terms conds rest =>
      anyVariable terms || anyVariable conds || aggAnyVariable rest
termination_by structural es

/-- Some choice clause holds a variable. -/
def choiceAnyVariable (es : ChoiceElems) : Bool :=
  match es with
  | .nil => false
  | .cons el conds rest =>
      containsVariable el || anyVariable conds || choiceAnyVariable rest
termination_by structural es

/-- A set cardinality bound holding a variable. -/
def cardHasVariable (c : OptCard) : Bool :=
  match c with
  | .unset => false
  | .set v => containsVariable v
termination_by structural c
end

/-- The operand check of `RangePool.__init__` in pool.py: each bound must
be a `ConstantBase` or an `Expression`, and an `Expression` bound must be
grounded (otherwise the constructor raises). -/
def rangeOperandOk (t : PTerm) : Bool :=
  match t with
  | .num _ => true
  | .strc _ => true
  | .sym _ => true
  | .expr1 _ _ => isGrounded t
  | .expr2 _ _ _ => isGrounded t
  | _ => false

/-- The element check of `ExplicitPool.__init__` in pool.py: each element
must be a `ConstantBase` or a `Predicate`, and a `Predicate` element must
be grounded (otherwise the constructor raises). -/
def poolElemOk (t : PTerm) : Bool :=
  match t with
  | .num _ => true
  | .strc _ => true
  | .sym _ => true
  | .pred _ _ => isGrounded t
  | _ => false

mutual
/-- Constructibility: the constructor-time validation the pyclingo classes
perform that bears on groundedness, applied at every node.  The two pool
constructors are the only ones whose checks matter here: `RangePool` and
`ExplicitPool` refuse ungrounded operands/elements (pool.py), which is why
their `is_grounded` may return `True` unconditionally. -/
def wf (t : PTerm) : Bool :=
  match t with
  | .var _ => true
  | .num _ => true
  | .strc _ => true
  | .sym _ => true
  | .pred _ args => wfList args
  | .expr1 _ arg => wf arg
  | .expr2 l _ r => wf l && wf r
  | .cmp l _ r => wf l && wf r
  | .rangePool lo hi =>
      wf lo && wf hi && rangeOperandOk lo && rangeOperandOk hi
  | .explicitPool elems => wfList elems && allPoolElemOk elems
  | .defNeg u => wf u
  | .classNeg u => wf u
  | .agg _ elems => wfAgg elems
  | .choice elems lo hi => wfChoice elems && wfCard lo && wfCard hi
  | .condLit h conds => wf h && wfList conds
termination_by structural t

/-- Every term of the list constructible. -/
def wfList (ts : TermList) : Bool :=
  match ts with
  | .nil => true
  | .cons t rest => wf t && wfList rest
termination_by structural ts

/-- Every element of the list passes `ExplicitPool`'s element check. -/
def allPoolElemOk (ts : TermList) : Bool :=
  match ts with
  | .nil => true
  | .cons t rest => poolElemOk t && allPoolElemOk rest
termination_by structural ts

/-- Every aggregate clause constructible. -/
def wfAgg (es : AggElems) : Bool :=
  match es with
  | .nil => true
  | .cons terms conds rest => wfList terms && wfList conds && wfAgg rest
termination_by structural es

/-- Every choice clause constructible. -/
def wfChoice (es : ChoiceElems) : Bool :=
  match es with
  | .nil => true
  | .cons el conds rest => wf el && wfList conds && wfChoice rest
termination_by structural es

/-- A set cardinality bound constructible. -/
def wfCard (c : OptCard) : Bool :=
  match c with
  | .unset => true
  | .set v => wf v
termination_by structural c
end

/-- `DefaultNegation.__init__` in negation.py: negating a twice-negated
term collapses (`not not not X` simplifies to `not X`); otherwise the term
is wrapped once more.  The simplification happens in the constructor, so
the stored tree is the returned one. -/
def defaultNegation (t : PTerm) : PTerm :=
  match t with
  | .defNeg (.defNeg x) => .defNeg x
  | .defNeg inner => .defNeg (.defNeg inner)
  | other => .defNeg other

/-- `ClassicalNegation.__init__` in negation.py: the constructor unwraps a
classically negated argument (`actual_term = term.term`) and then wraps
`actual_term` in a new `ClassicalNegation`. -/
def classicalNegation (t : PTerm) : PTerm :=
  match t with
  | .classNeg x => .classNeg x
  | other => .classNeg other

/-- `validate_in_context(is_in_head)` of each pyclingo term class, with
`some message` for a raised `ValueError` and `none` for acceptance:
variables and constants always raise (value.py), expressions always raise
(expression.py), comparisons and predicates and pools pass everywhere
(expression.py, predicate.py, pool.py), default negation raises in heads
(negation.py), classical negation passes everywhere (negation.py),
aggregates always raise (aggregates.py), choices raise in bodies
(choice.py), conditional literals raise in heads (conditional_literal.py). -/
def validateInContext (t : PTerm) (isInHead : Bool) : Option String :=
  match t with
  | .var _ =>
      some "Variables can only be used as arguments to predicates or other terms"
  | .num _ | .strc _ | .sym _ =>
      some "Constants can only be used as arguments to predicates or other terms"
  | .pred _ _ => none
  | .expr1 _ _ | .expr2 _ _ _ =>
      some "Expressions can only be used as parts of comparisons, assignments, or as predicate arguments"
  | .cmp _ _ _ => none
  | .rangePool _ _ | .explicitPool _ => none
  | .defNeg _ =>
      if isInHead then some "Default negation (not) cannot be used in rule heads"
      else none
  | .classNeg _ => none
  | .agg _ _ =>
      some "Aggregates must be used in comparisons (e.g., #count\x7b...\x7d > 0) and cannot appear directly in rule heads or bodies"
  | .choice _ _ _ =>
      if isInHead then none
      else some "Choice rules can only be used in rule heads, not in rule bodies"
  | .condLit _ _ =>
      if isInHead then some "Conditional literals cannot be used in rule heads"
      else none

/-- Validating each body term in order, as the loop in `Rule.__init__`
does; the first raised error aborts the construction. -/
def validateBody (body : List PTerm) : Option String :=
  match body with
  | [] => none
  | t :: rest =>
      match validateInContext t false with
      | some msg => some msg
      | none => validateBody rest

/-- `Rule.__init__` from program_elements.py: an empty rule raises, the
head (when present) is validated in head position, and every body term is
validated in body position.  `some message` models a raised `ValueError`,
`none` a successfully constructed rule. -/
def mkRuleError (head : Option PTerm) (body : List PTerm) : Option String :=
  match head, body with
  | none, [] => some "Cannot have a rule with empty head and body!"
  | _, _ =>
      match head with
      | some h =>
          match validateInContext h true with
          | some msg => some msg
          | none => validateBody body
      | none => validateBody body

/-- The builder state of a `Choice` in choice.py: accumulated element
clauses plus the two optional cardinality bounds. -/
structure ChoiceBuilder where
  elements : ChoiceElems
  minCardinality : OptCard
  maxCardinality : OptCard

/-- The cardinality argument of choice.py's setters
(`CARDINALITY_TYPE = Union[int, Value]`). -/
inductive CardInput where
  | int (n : Int)
  | val (v : PTerm)

/-- `Choice._validate_cardinality` from choice.py: the bound must be an
int or a `Value`, must not be a `StringConstant`, and an int bound must be
non-negative; an int is converted to a `Constant`. -/
def validateCardinality (count : CardInput) (descr : String) :
    Except String PTerm :=
  match count with
  | .int n =>
      if n < 0 then
        .error (descr ++ " must be a non-negative integer, got " ++ toString n)
      else .ok (.num n)
  | .val v =>
      match v with
      | .strc _ => .error (descr ++ " cannot be a StringConstant")
      | .var x => .ok (.var x)
      | .num n => .ok (.num n)
      | .sym s => .ok (.sym s)
      | _ => .error (descr ++ " must be an integer or Value")

/-- `Choice.exactly` from choice.py: validate the bound, raise when any
cardinality constraint is already set, then set both bounds to it. -/
def ChoiceBuilder.exactly (b : ChoiceBuilder) (count : CardInput) :
    Except String ChoiceBuilder := do
  let v ← validateCardinality count "Exact cardinality"
  match b.minCardinality, b.maxCardinality with
  | .unset, .unset =>
      .ok { b with minCardinality := .set v, maxCardinality := .set v }
  | _, _ => .error "Cardinality constraints are already set"

/-- `Choice.at_least` from choice.py: validate the bound, raise when the
minimum is already set, then set it. -/
def ChoiceBuilder.atLeast (b : ChoiceBuilder) (count : CardInput) :
    Except String ChoiceBuilder := do
  let v ← validateCardinality count "Minimum cardinality"
  match b.minCardinality with
  | .unset => .ok { b with minCardinality := .set v }
  | .set _ => .error "Minimum cardinality is already set"

/-- `Choice.at_most` from choice.py: validate the bound, raise when the
maximum is already set, then set it. -/
def ChoiceBuilder.atMost (b : ChoiceBuilder) (count : CardInput) :
    Except String ChoiceBuilder := do
  let v ← validateCardinality count "Maximum cardinality"
  match b.maxCardinality with
  | .unset => .ok { b with maxCardinality := .set v }
  | .set _ => .error "Maximum cardinality is already set"

/-- The element type check of `Choice.add` in choice.py: elements must be
predicates or classically negated predicates. -/
def isChoiceElement (t : PTerm) : Bool :=
  match t with
  | .pred _ _ => true
  | .classNeg _ => true
  | _ => false

/-- The condition type check of `Choice.add` (also `Aggregate.add`):
conditions must be predicates, negated literals or comparisons. -/
def isConditionTerm (t : PTerm) : Bool :=
  match t with
  | .pred _ _ => true
  | .defNeg _ => true
  | .classNeg _ => true
  | .cmp _ _ _ => true
  | _ => false

/-- Conversion from a Lean list (used for builder inputs). -/
def toTermList (ts : List PTerm) : TermList :=
  match ts with
  | [] => .nil
  | t :: rest => .cons t (toTermList rest)

/-- Appending one clause at the end of the accumulated choice clauses
(`self._elements.append(...)` in `Choice.add`). -/
def appendChoiceElem (es : ChoiceElems) (el : PTerm) (conds : TermList) :
    ChoiceElems :=
  match es with
  | .nil => .cons el conds .nil
  | .cons a b rest => .cons a b (appendChoiceElem rest el conds)

/-- `Choice.add` from choice.py: validate the element and condition types
and append the clause. -/
def ChoiceBuilder.add (b : ChoiceBuilder) (element : PTerm)
    (conds : List PTerm) : Except String ChoiceBuilder :=
  if !isChoiceElement element then
    .error "Choice element must be a Predicate, ClassicalNegation, or Value"
  else if !(conds.all isConditionTerm) then
    .error "Choice condition must be a Predicate, NegatedLiteral, or Comparison"
  else
    .ok { b with
      elements := appendChoiceElem b.elements element (toTermList conds) }

/-- `Choice.__init__` from choice.py: no bounds set, one initial element
added through `add`. -/
def mkChoice (element : PTerm) (conds : List PTerm) :
    Except String ChoiceBuilder :=
  ChoiceBuilder.add ⟨.nil, .unset, .unset⟩ element conds

/-- `Choice.render`, through the term model's `render`. -/
def ChoiceBuilder.render (b : ChoiceBuilder) : String :=
  renderD (.choice b.elements b.minCardinality b.maxCardinality)

/-- The input of the `pool()` helper in pool.py: a Python `range`, a
list/tuple of elements (already converted to terms), or an existing pool. -/
inductive PoolInput where
  | rng (start stop step : Int)
  | seq (elems : List PTerm)
  | pl (p : PTerm)

/-- The number of elements of Python's `range(start, stop, step)`
(`step ≠ 0`; a non-positive count is clamped to zero). -/
def rangeLen (start stop step : Int) : Nat :=
  if 0 < step then (((stop - start) + step - 1).fdiv step).toNat
  else (((stop - start) + step + 1).fdiv step).toNat

/-- The elements of Python's `range(start, stop, step)`. -/
def rangeElems (start stop step : Int) : List Int :=
  (List.range (rangeLen start stop step)).map (fun i => start + step * i)

/-- The element conversion loop of `pool()` in pool.py for list/tuple
input: ints and strings become constants (already terms here), constants
pass, predicates must be grounded, anything else is a type error. -/
def convertPoolElems (elems : List PTerm) : Except String (List PTerm) :=
  match elems with
  | [] => .ok []
  | t :: rest =>
      match t with
      | .num n => do pure (.num n :: (← convertPoolElems rest))
      | .strc s => do pure (.strc s :: (← convertPoolElems rest))
      | .sym s => do pure (.sym s :: (← convertPoolElems rest))
      | .pred n args =>
          if isGrounded (.pred n args) then do
            pure (.pred n args :: (← convertPoolElems rest))
          else
            .error ("Predicate in pool must be grounded: " ++ renderD (.pred n args))
      | _ =>
          .error "Pool element must be an int, str, ConstantBase, or grounded Predicate"

/-- The `pool()` conversion helper of pool.py: an existing pool is
returned unchanged; a range with step 1 becomes a
`RangePool(start, stop - 1)` (no emptiness check on this path); a range
with any other step is enumerated into an `ExplicitPool` when non-empty
and raises on an empty range; a list raises when empty and otherwise has
its elements converted into an `ExplicitPool`. -/
def poolFn (input : PoolInput) : Except String PTerm :=
  match input with
  | .pl p => .ok p
  | .rng s e st =>
      if st == 1 then .ok (.rangePool (.num s) (.num (e - 1)))
      else
        match rangeElems s e st with
        | [] => .error "Cannot create an empty pool from empty range"
        | x :: xs => .ok (.explicitPool (toTermList ((x :: xs).map PTerm.num)))
  | .seq [] => .error "Cannot create an empty pool"
  | .seq (t :: rest) => do
      let converted ← convertPoolElems (t :: rest)
      .ok (.explicitPool (toTermList converted))

/-- `Variable.in_` from value.py: builds
`Comparison(self, ComparisonOperator.EQUAL, pool(pool_or_range))`. -/
def varIn (name : String) (input : PoolInput) : Except String PTerm := do
  let p ← poolFn input
  .ok (.cmp (.var name) .equal p)

mutual
/-- `collect_symbolic_constants` of each term class: the name of a
symbolic constant leaf, and the union over children everywhere else.
The Python methods return sets; a list (possibly with repeats) models the
set through membership, and the one consumer that orders the names sorts
them first (solver.py). -/
def collectSyms (t : PTerm) : List String :=
  match t with
  | .var _ => []
  | .num _ => []
  | .strc _ => []
  | .sym s => [s]
  | .pred _ args => collectSymsList args
  | .expr1 _ arg => collectSyms arg
  | .expr2 l _ r => collectSyms l ++ collectSyms r
  | .cmp l _ r => collectSyms l ++ collectSyms r
  | .rangePool lo hi => collectSyms lo ++ collectSyms hi
  | .explicitPool elems => collectSymsList elems
  | .defNeg u => collectSyms u
  | .classNeg u => collectSyms u
  | .agg _ elems => collectSymsAgg elems
  | .choice elems lo hi =>
      collectSymsChoice elems ++ collectSymsCard lo ++ collectSymsCard hi
  | .condLit h conds => collectSyms h ++ collectSymsList conds
termination_by structural t

/-- Union over a term list. -/
def collectSymsList (ts : TermList) : List String :=
  match ts with
  | .nil => []
  | .cons t rest => collectSyms t ++ collectSymsList rest
termination_by structural ts

/-- Union over aggregate clauses. -/
def collectSymsAgg (es : AggElems) : List String :=
  match es with
  | .nil => []
  | .cons terms conds rest =>
      collectSymsList terms ++ collectSymsList conds ++ collectSymsAgg rest
termination_by structural es

/-- Union over choice clauses. -/
def collectSymsChoice (es : ChoiceElems) : List String :=
  match es with
  | .nil => []
  | .cons el conds rest =>
      collectSyms el ++ collectSymsList conds ++ collectSymsChoice rest
termination_by structural es

/-- Union over a set cardinality bound (`Choice.collect_symbolic_constants`). -/
def collectSymsCard (c : OptCard) : List String :=
  match c with
  | .unset => []
  | .set v => collectSyms v
termination_by structural c
end

mutual
/-- `collect_predicates` of each term class, as (rendered name, arity)
pairs: a predicate contributes its own class plus whatever its arguments
contribute; every other class takes the union over its children (range
pools and values contribute nothing). -/
def collectPreds (t : PTerm) : List (String × Nat) :=
  match t with
  | .var _ => []
  | .num _ => []
  | .strc _ => []
  | .sym _ => []
  | .pred n args => (n, termListLength args) :: collectPredsList args
  | .expr1 _ arg => collectPreds arg
  | .expr2 l _ r => collectPreds l ++ collectPreds r
  | .cmp l _ r => collectPreds l ++ collectPreds r
  | .rangePool _ _ => []
  | .explicitPool elems => collectPredsList elems
  | .defNeg u => collectPreds u
  | .classNeg u => collectPreds u
  | .agg _ elems => collectPredsAgg elems
  | .choice elems _ _ => collectPredsChoice elems
  | .condLit h conds => collectPreds h ++ collectPredsList conds
termination_by structural t

/-- Union over a term list. -/
def collectPredsList (ts : TermList) : List (String × Nat) :=
  match ts with
  | .nil => []
  | .cons t rest => collectPreds t ++ collectPredsList rest
termination_by structural ts

/-- Union over aggregate clauses. -/
def collectPredsAgg (es : AggElems) : List (String × Nat) :=
  match es with
  | .nil => []
  | .cons terms conds rest =>
      collectPredsList terms ++ collectPredsList conds ++ collectPredsAgg rest
termination_by structural es

/-- Union over choice clauses (cardinality bounds can never contain
predicates, per choice.py). -/
def collectPredsChoice (es : ChoiceElems) : List (String × Nat) :=
  match es with
  | .nil => []
  | .cons el conds rest =>
      collectPreds el ++ collectPredsList conds ++ collectPredsChoice rest
termination_by structural es

/-- Length of a term list (a predicate's arity, `get_arity`). -/
def termListLength (ts : TermList) : Nat :=
  match ts with
  | .nil => 0
  | .cons _ rest => termListLength rest + 1
termination_by structural ts
end

/-- The registered value of a symbolic constant (int or string,
solver.py). -/
inductive ConstValue where
  | int (n : Int)
  | str (s : String)
deriving DecidableEq, Repr

/-- A program element, from program_elements.py: rule (covering facts and
constraints), comment, blank line. -/
inductive Element where
  | rule (head : Option PTerm) (body : List PTerm)
  | comment (text : String)
  | blank

/-- `Rule.render`, `Comment.render` and `BlankLine.render` from
program_elements.py. -/
def Element.render (el : Element) : String :=
  match el with
  | .rule head body =>
      let headStr := match head with
        | some h => renderD h
        | none => ""
      let bodyStr :=
        match body with
        | [] => ""
        | _ =>
            (match head with
             | some _ => " :- "
             | none => ":- ")
            ++ String.intercalate ", " (body.map renderD)
      headStr ++ bodyStr ++ "."
  | .comment text =>
      if text.contains '\n' then "%*\n" ++ text ++ "\n*%" else "% " ++ text
  | .blank => ""

/-- The symbolic constants referenced by a program element
(`Rule.collect_symbolic_constants`; comments and blank lines contribute
nothing, per the `ProgramElement` default). -/
def Element.syms (el : Element) : List String :=
  match el with
  | .rule head body =>
      (match head with
       | some h => collectSyms h
       | none => []) ++ body.flatMap collectSyms
  | .comment _ => []
  | .blank => []

/-- The predicate classes referenced by a program element
(`Rule.collect_predicates`). -/
def Element.preds (el : Element) : List (String × Nat) :=
  match el with
  | .rule head body =>
      (match head with
       | some h => collectPreds h
       | none => []) ++ body.flatMap collectPreds
  | .comment _ => []
  | .blank => []

/-- Lexicographic comparison of character lists by code point, as Python
compares strings. -/
def charListLe (a b : List Char) : Bool :=
  match a, b with
  | [], _ => true
  | _ :: _, [] => false
  | c :: cs, d :: ds =>
      if c.toNat < d.toNat then true
      else if d.toNat < c.toNat then false
      else charListLe cs ds

/-- Lexicographic comparison of strings by code point. -/
def strLe (a b : String) : Bool :=
  charListLe a.data b.data

/-- Insertion of a string into a sorted list (used to model Python's
`sorted`). -/
def insertStr (a : String) (l : List String) : List String :=
  match l with
  | [] => [a]
  | b :: rest => if strLe a b then a :: b :: rest else b :: insertStr a rest

/-- Python's `sorted` on a list of strings (insertion sort;
lexicographic order). -/
def sortStrs (l : List String) : List String :=
  match l with
  | [] => []
  | a :: rest => insertStr a (sortStrs rest)

/-- Deduplication keeping first occurrences (`seen` accumulates what was
kept), used to model a Python set by a duplicate-free list. -/
def dedupStrAux (seen : List String) (l : List String) : List String :=
  match l with
  | [] => []
  | a :: rest =>
      if seen.contains a then dedupStrAux seen rest
      else a :: dedupStrAux (a :: seen) rest

/-- The distinct members of a list of strings, first occurrences kept. -/
def dedupStr (l : List String) : List String :=
  dedupStrAux [] l

/-- `ASPProgram` state from solver.py: the ordered segment registry
(`_segments`, a `defaultdict` keyed by the exact segment string), the
symbolic constant registry (`_symbolic_constants`, insertion ordered),
the optional header and the default segment name. -/
structure ASPProgram where
  segments : List (String × List Element)
  symbolicConstants : List (String × ConstValue)
  header : Option String
  defaultSegment : String

/-- `ASPProgram.__init__` with the default arguments. -/
def ASPProgram.empty : ASPProgram :=
  { segments := [], symbolicConstants := [], header := none,
    defaultSegment := "Rules" }

/-- `ASPProgram.add_segment` from solver.py: raises when the exact
segment key is already present, otherwise creates an empty segment. -/
def ASPProgram.addSegment (p : ASPProgram) (segment : String) :
    Except String ASPProgram :=
  if p.segments.any (fun sc => sc.1 == segment) then
    .error ("Segment \x27" ++ segment ++ "\x27 already exists")
  else
    .ok { p with segments := p.segments ++ [(segment, [])] }

/-- `self._segments[key].append(element)` on the `defaultdict`: append to
the segment with that exact key, creating it at the end when absent. -/
def appendToSegment (segs : List (String × List Element)) (key : String)
    (el : Element) : List (String × List Element) :=
  match segs with
  | [] => [(key, [el])]
  | (name, els) :: rest =>
      if name == key then (name, els ++ [el]) :: rest
      else (name, els) :: appendToSegment rest key el

/-- `ASPProgram.fact` for a single predicate from solver.py: appends
`Rule(head=predicate)` to the chosen (or default) segment. -/
def ASPProgram.fact (p : ASPProgram) (predicate : PTerm)
    (segment : Option String := none) : ASPProgram :=
  { p with segments :=
      (appendToSegment p.segments (segment.getD p.defaultSegment)
        (.rule (some predicate) [])) }

/-- `ASPProgram.register_symbolic_constant` from solver.py: the name must
start with a lowercase letter, contain only alphanumerics and underscores
and not be registered yet. -/
def ASPProgram.registerSymbolicConstant (p : ASPProgram) (name : String)
    (value : ConstValue) : Except String ASPProgram :=
  if name.isEmpty || !(name.get 0).isLower then
    .error ("Constant name must start with a lowercase letter: " ++ name)
  else if !(name.data.all fun c => c.isAlphanum || c == '_') then
    .error ("Constant name can only contain letters, digits, and underscores: "
      ++ name)
  else if p.symbolicConstants.any (fun nv => nv.1 == name) then
    .error ("Symbolic constant \x27" ++ name ++ "\x27 is already registered")
  else
    .ok { p with symbolicConstants := p.symbolicConstants ++ [(name, value)] }

/-- `ASPProgram._collect_used_symbolic_constants` from solver.py (as a
list whose member-set is the Python set). -/
def ASPProgram.usedConstants (p : ASPProgram) : List String :=
  p.segments.flatMap fun se => se.2.flatMap Element.syms

/-- The sorted list of offending constants built by
`ASPProgram._validate_constants`: the distinct used names not registered,
sorted (`sorted(unregistered)` over the set difference). -/
def ASPProgram.unregistered (p : ASPProgram) : List String :=
  sortStrs (dedupStr (p.usedConstants.filter fun c =>
    !(p.symbolicConstants.any fun nv => nv.1 == c)))

/-- Python's `str.title()` (solver.py renders segment banners with it):
each alphabetic run is capitalized, its remaining letters lowercased. -/
def titleChars (cs : List Char) (prevAlpha : Bool) : List Char :=
  match cs with
  | [] => []
  | c :: rest =>
      (if c.isAlpha then (if prevAlpha then c.toLower else c.toUpper) else c)
        :: titleChars rest c.isAlpha

/-- `str.title()` on a string. -/
def pythonTitle (s : String) : String :=
  ⟨titleChars s.data false⟩

/-- One `#const` line of `ASPProgram.render`: string values quoted,
integer values plain. -/
def constLine (name : String) (value : ConstValue) : String :=
  match value with
  | .str s => "#const " ++ name ++ " = \"" ++ s ++ "\"."
  | .int n => "#const " ++ name ++ " = " ++ toString n ++ "."

/-- The `#const` lines of `ASPProgram.render`: the registered constants in
registration order, keeping only those referenced in the program. -/
def ASPProgram.constLines (p : ASPProgram) : List String :=
  (p.symbolicConstants.filter fun nv => p.usedConstants.contains nv.1).map
    fun nv => constLine nv.1 nv.2

/-- The per-segment lines of `ASPProgram.render`: a blank line and a
title-cased banner before each non-empty segment when the program has more
than one segment, then the rendered elements.  (The source's
`lines.extend("")` extends by an empty iterable and adds nothing, so the
`first_segment` flag has no effect on the output.) -/
def segmentLines (segs : List (String × List Element)) (multi : Bool) :
    List String :=
  segs.flatMap fun se =>
    (if multi && !se.2.isEmpty then
       ["", "% ===== " ++ pythonTitle se.1 ++ " ====="]
     else [])
    ++ se.2.map Element.render

/-- The `#show` block of `ASPProgram.render`: the sorted distinct
`#show name/arity.` directives of every predicate class referenced
anywhere in the program (all predicates here carry the class default
`_show = True` and no show conditions), preceded by a blank line and
`#show.` when any exist. -/
def ASPProgram.showLines (p : ASPProgram) : List String :=
  let preds := p.segments.flatMap fun se => se.2.flatMap Element.preds
  let stmts := sortStrs (dedupStr (preds.map fun na =>
      "#show " ++ na.1 ++ "/" ++ toString na.2 ++ "."))
  match stmts with
  | [] => []
  | _ => ["", "#show."] ++ stmts

/-- All lines of a successful `ASPProgram.render`, in order: header
comments (the generation timestamp is passed in as `now`), `#const`
lines, segment lines, `#show` block. -/
def ASPProgram.renderLines (p : ASPProgram) (now : String) : List String :=
  (match p.header with
   | some h => ["% " ++ h]
   | none => [])
  ++ ["% Generated by pyclingo on " ++ now]
  ++ p.constLines
  ++ segmentLines p.segments (p.segments.length > 1)
  ++ p.showLines

/-- `ASPProgram.render` from solver.py: `_validate_constants` raises a
`ValueError` naming every offending constant when any referenced symbolic
constant is unregistered; otherwise the joined program text is produced. -/
def ASPProgram.render (p : ASPProgram) (now : String) : Except String String :=
  if p.unregistered.isEmpty then
    .ok (String.intercalate "\n" (p.renderLines now) ++ "\n")
  else
    .error ("Unregistered symbolic constants used in program: "
      ++ String.intercalate ", " p.unregistered)

/-- A one-fact program whose fact references the unregistered symbolic
constant `k`. -/
def progUnregistered : ASPProgram :=
  ASPProgram.empty.fact (.pred "q" (.cons (.sym "k") .nil)) none

/-- The same program after `register_symbolic_constant("k", 5)`. -/
def progRegistered : ASPProgram :=
  { progUnregistered with symbolicConstants := [("k", ConstValue.int 5)] }

theorem rangeOperandOk_grounded (t : PTerm) (h : rangeOperandOk t = true) :
    isGrounded t = true := by
  cases t <;> simp_all [rangeOperandOk, isGrounded]

theorem poolElemOk_grounded (t : PTerm) (h : poolElemOk t = true) :
    isGrounded t = true := by
  cases t <;> simp_all [poolElemOk, isGrounded]

mutual
theorem grounded_iff_noVar (t : PTerm) (h : wf t = true) :
    isGrounded t = !containsVariable t :=
  match t, h with
  | .var _, _ => by simp [isGrounded, containsVariable]
  | .num _, _ => by simp [isGrounded, containsVariable]
  | .strc _, _ => by simp [isGrounded, containsVariable]
  | .sym _, _ => by simp [isGrounded, containsVariable]
  | .pred _ args, h => by
      simp only [wf] at h
      simpa [isGrounded, containsVariable] using groundedList_iff_noVar args h
  | .expr1 _ arg, h => by
      simp only [wf] at h
      simpa [isGrounded, containsVariable] using grounded_iff_noVar arg h
  | .expr2 l _ r, h => by
      simp only [wf, Bool.and_eq_true] at h
      simp [isGrounded, containsVariable, grounded_iff_noVar l h.1,
        grounded_iff_noVar r h.2]
  | .cmp l _ r, h => by
      simp only [wf, Bool.and_eq_true] at h
      simp [isGrounded, containsVariable, grounded_iff_noVar l h.1,
        grounded_iff_noVar r h.2]
  | .rangePool lo hi, h => by
      simp only [wf, Bool.and_eq_true] at h
      obtain ⟨⟨⟨h1, h2⟩, h3⟩, h4⟩ := h
      have e1 := grounded_iff_noVar lo h1
      have e2 := grounded_iff_noVar hi h2
      rw [rangeOperandOk_grounded lo h3] at e1
      rw [rangeOperandOk_grounded hi h4] at e2
      simp [isGrounded, containsVariable, ← e1, ← e2]
  | .explicitPool elems, h => by
      simp only [wf, Bool.and_eq_true] at h
      simp [isGrounded, containsVariable,
        poolList_noVar elems h.1 h.2]
  | .defNeg u, h => by
      simp only [wf] at h
      simpa [isGrounded, containsVariable] using grounded_iff_noVar u h
  | .classNeg u, h => by
      simp only [wf] at h
      simpa [isGrounded, containsVariable] using grounded_iff_noVar u h
  | .agg _ elems, h => by
      simp only [wf] at h
      simpa [isGrounded, containsVariable] using aggGrounded_iff_noVar elems h
  | .choice elems lo hi, h => by
      simp only [wf, Bool.and_eq_true] at h
      obtain ⟨⟨h1, h2⟩, h3⟩ := h
      simp [isGrounded, containsVariable, choiceGrounded_iff_noVar elems h1,
        cardGrounded_iff_noVar lo h2, cardGrounded_iff_noVar hi h3]
  | .condLit hd conds, h => by
      simp only [wf, Bool.and_eq_true] at h
      simp [isGrounded, containsVariable, grounded_iff_noVar hd h.1,
        groundedList_iff_noVar conds h.2]
termination_by structural t

theorem groundedList_iff_noVar (ts : TermList) (h : wfList ts = true) :
    allGrounded ts = !anyVariable ts :=
  match ts, h with
  | .nil, _ => by simp [allGrounded, anyVariable]
  | .cons t rest, h => by
      simp only [wfList, Bool.and_eq_true] at h
      simp [allGrounded, anyVariable, grounded_iff_noVar t h.1,
        groundedList_iff_noVar rest h.2]
termination_by structural ts

theorem poolList_noVar (ts : TermList) (h : wfList ts = true)
    (hok : allPoolElemOk ts = true) : anyVariable ts = false :=
  match ts, h, hok with
  | .nil, _, _ => by simp [anyVariable]
  | .cons t rest, h, hok => by
      simp only [wfList, Bool.and_eq_true] at h
      simp only [allPoolElemOk, Bool.and_eq_true] at hok
      have e := grounded_iff_noVar t h.1
      rw [poolElemOk_grounded t hok.1] at e
      have e2 : containsVariable t = false := by
        cases hcv : containsVariable t
        · rfl
        · rw [hcv] at e
          simp at e
      simp [anyVariable, e2, poolList_noVar rest h.2 hok.2]
termination_by structural ts

theorem aggGrounded_iff_noVar (es : AggElems) (h : wfAgg es = true) :
    aggAllGrounded es = !aggAnyVariable es :=
  match es, h with
  | .nil, _ => by simp [aggAllGrounded, aggAnyVariable]
  | .cons terms conds rest, h => by
      simp only [wfAgg, Bool.and_eq_true] at h
      obtain ⟨⟨h1, h2⟩, h3⟩ := h
      simp [aggAllGrounded, aggAnyVariable, groundedList_iff_noVar terms h1,
        groundedList_iff_noVar conds h2, aggGrounded_iff_noVar rest h3]
termination_by structural es

theorem choiceGrounded_iff_noVar (es : ChoiceElems) (h : wfChoice es = true) :
    choiceAllGrounded es = !choiceAnyVariable es :=
  match es, h with
  | .nil, _ => by simp [choiceAllGrounded, choiceAnyVariable]
  | .cons el conds rest, h => by
      simp only [wfChoice, Bool.and_eq_true] at h
      obtain ⟨⟨h1, h2⟩, h3⟩ := h
      simp [choiceAllGrounded, choiceAnyVariable, grounded_iff_noVar el h1,
        groundedList_iff_noVar conds h2, choiceGrounded_iff_noVar rest h3]
termination_by structural es

theorem cardGrounded_iff_noVar (c : OptCard) (h : wfCard c = true) :
    cardGrounded c = !cardHasVariable c :=
  match c, h with
  | .unset, _ => by simp [cardGrounded, cardHasVariable]
  | .set v, h => by
      simp only [wfCard] at h
      simpa [cardGrounded, cardHasVariable] using grounded_iff_noVar v h
termination_by structural c
end

theorem mem_insertStr (c a : String) (l : List String) :
    c ∈ insertStr a l ↔ c = a ∨ c ∈ l := by
  induction l with
  | nil => simp [insertStr]
  | cons b rest ih =>
      simp only [insertStr]
      split
      · simp
      · simp only [List.mem_cons, ih]
        tauto

theorem mem_sortStrs (c : String) (l : List String) :
    c ∈ sortStrs l ↔ c ∈ l := by
  induction l with
  | nil => simp [sortStrs]
  | cons a rest ih => simp [sortStrs, mem_insertStr, ih]

theorem mem_dedupStrAux (c : String) (l seen : List String) :
    c ∈ dedupStrAux seen l ↔ c ∈ l ∧ c ∉ seen := by
  induction l generalizing seen with
  | nil => simp [dedupStrAux]
  | cons a rest ih =>
      simp only [dedupStrAux]
      cases hc : seen.contains a with
      | false =>
          have ha : a ∉ seen := by
            intro hm
            have hct : seen.contains a = true := List.elem_iff.mpr hm
            rw [hc] at hct
            exact Bool.false_ne_true hct
          by_cases hca : c = a
          · subst hca
            simp [hc, ha]
          · simp only [hc, Bool.false_eq_true, if_false, List.mem_cons, ih,
              hca, false_or]
      | true =>
          have ha : a ∈ seen := List.elem_iff.mp hc
          simp only [hc, eq_self_iff_true, if_true, ih, List.mem_cons]
          constructor
          · rintro ⟨hr, hn⟩
            exact ⟨Or.inr hr, hn⟩
          · rintro ⟨hca | hr, hn⟩
            · subst hca
              exact absurd ha hn
            · exact ⟨hr, hn⟩

theorem mem_dedupStr (c : String) (l : List String) :
    c ∈ dedupStr l ↔ c ∈ l := by
  simp [dedupStr, mem_dedupStrAux]

theorem mem_unregistered (p : ASPProgram) (c : String) :
    c ∈ p.unregistered ↔
      c ∈ p.usedConstants
        ∧ (p.symbolicConstants.any fun nv => nv.1 == c) = false := by
  simp only [ASPProgram.unregistered, mem_sortStrs, mem_dedupStr,
    List.mem_filter, Bool.not_eq_true']

/-- C1: the claim says rendering reproduces standard arithmetic precedence,
with `Expression(A, MULTIPLY, Expression(B, ADD, C))` rendering as
`A * (B + C)` and `Expression(A, ADD, Expression(B, MULTIPLY, C))` as
`A + B * C`.  Evaluating the code at those inputs (A, B, C the variables
X, Y, Z): the addition under multiplication is rendered WITHOUT
parentheses and the multiplication under addition WITH them, because
`Expression.render` compares the raw numbers of the `PRECEDENCE` table as
if a larger number meant higher precedence while the table assigns lower
numbers to tighter-binding operators. -/
theorem render_precedence_at_bug_input :
    renderD (.expr2 (.var "X") .multiply (.expr2 (.var "Y") .add (.var "Z")))
        = "X * Y + Z"
    ∧ renderD (.expr2 (.var "X") .add (.expr2 (.var "Y") .multiply (.var "Z")))
        = "X + (Y * Z)" :=
  ⟨rfl, rfl⟩

/-- C3: a same-precedence right-hand operand of a non-commutative operator
is parenthesized and division inside multiplication is handled:
`(X*Y)//Z` renders as `X * Y / Z`, `X*(Y//Z)` as `X * (Y / Z)`,
`X-(Y-Z)` as `X - (Y - Z)` and `(X-Y)-Z` as `X - Y - Z`. -/
theorem render_noncommutative_same_precedence :
    renderD (.expr2 (.expr2 (.var "X") .multiply (.var "Y")) .integerDivide
        (.var "Z")) = "X * Y / Z"
    ∧ renderD (.expr2 (.var "X") .multiply
        (.expr2 (.var "Y") .integerDivide (.var "Z"))) = "X * (Y / Z)"
    ∧ renderD (.expr2 (.var "X") .subtract
        (.expr2 (.var "Y") .subtract (.var "Z"))) = "X - (Y - Z)"
    ∧ renderD (.expr2 (.expr2 (.var "X") .subtract (.var "Y")) .subtract
        (.var "Z")) = "X - Y - Z" :=
  ⟨rfl, rfl, rfl, rfl⟩

/-- C4: the claim says `ClassicalNegation(ClassicalNegation(P))` renders
identically to `P`.  Evaluating the code at the predicate `p`: the
constructor unwraps the inner negation but wraps the result in a new
`ClassicalNegation`, so the double negation renders as `-p`, not `p`. -/
theorem classical_double_negation_at_bug_input :
    renderD (classicalNegation (classicalNegation (.pred "p" .nil))) = "-p"
    ∧ renderD (.pred "p" .nil) = "p"
    ∧ classicalNegation (classicalNegation (.pred "p" .nil))
        = .classNeg (.pred "p" .nil) :=
  ⟨rfl, rfl, rfl⟩

/-- C5: for every predicate instance, `DefaultNegation` applied three
times yields the same stored tree as applying it once (rendering
`not p...`), applying it twice renders `not not p...` and is stored
uncollapsed, and the normalization happens at construction. -/
theorem default_negation_normalization (name : String) (args : TermList) :
    defaultNegation (defaultNegation (defaultNegation (.pred name args)))
        = defaultNegation (.pred name args)
    ∧ renderD (defaultNegation (defaultNegation (defaultNegation
        (.pred name args))))
        = renderD (defaultNegation (.pred name args))
    ∧ defaultNegation (defaultNegation (.pred name args))
        = .defNeg (.defNeg (.pred name args))
    ∧ renderD (defaultNegation (defaultNegation (.pred name args)))
        = "not not " ++ renderD (.pred name args) := by
  refine ⟨rfl, rfl, rfl, ?_⟩
  have base : ∀ s : String, "not " ++ ("not " ++ s) = "not not " ++ s := by
    intro s
    apply String.ext
    simp [String.data_append]
  exact base (renderD (.pred name args))

/-- C6: for every constructible term of every node kind, `is_grounded`
returns true exactly when the term's transitive subtree holds no
`Variable` leaf. -/
theorem is_grounded_iff_no_variable (t : PTerm) (h : wf t = true) :
    isGrounded t = !containsVariable t :=
  grounded_iff_noVar t h

/-- Witness for C6 at the aggregate `#count{X : p(X)}`, whose local
variable X makes it ungrounded. -/
theorem is_grounded_iff_no_variable_witness :
    wf (.agg .count (.cons (.cons (.var "X") .nil)
        (.cons (.pred "p" (.cons (.var "X") .nil)) .nil) .nil)) = true
    ∧ isGrounded (.agg .count (.cons (.cons (.var "X") .nil)
        (.cons (.pred "p" (.cons (.var "X") .nil)) .nil) .nil))
      = !containsVariable (.agg .count (.cons (.cons (.var "X") .nil)
        (.cons (.pred "p" (.cons (.var "X") .nil)) .nil) .nil)) :=
  ⟨rfl, is_grounded_iff_no_variable _ rfl⟩

/-- C7: constructing a `Rule` raises exactly at the structurally illegal
placements: a bare aggregate in head or body raises, default negation or
a conditional literal in the head raises, a choice in the body raises,
and classical negation is accepted in both positions. -/
theorem rule_context_validation :
    (∀ (ty : AggregateType) (es : AggElems) (body : List PTerm),
      mkRuleError (some (.agg ty es)) body
        = some "Aggregates must be used in comparisons (e.g., #count\x7b...\x7d > 0) and cannot appear directly in rule heads or bodies")
    ∧ (∀ (n : String) (args : TermList) (ty : AggregateType) (es : AggElems),
      mkRuleError (some (.pred n args)) [.agg ty es]
        = some "Aggregates must be used in comparisons (e.g., #count\x7b...\x7d > 0) and cannot appear directly in rule heads or bodies")
    ∧ (∀ (u : PTerm) (body : List PTerm),
      mkRuleError (some (.defNeg u)) body
        = some "Default negation (not) cannot be used in rule heads")
    ∧ (∀ (hd : PTerm) (conds : TermList) (body : List PTerm),
      mkRuleError (some (.condLit hd conds)) body
        = some "Conditional literals cannot be used in rule heads")
    ∧ (∀ (n : String) (args : TermList) (es : ChoiceElems) (lo hi : OptCard),
      mkRuleError (some (.pred n args)) [.choice es lo hi]
        = some "Choice rules can only be used in rule heads, not in rule bodies")
    ∧ (∀ (u : PTerm), mkRuleError (some (.classNeg u)) [] = none)
    ∧ (∀ (u : PTerm), mkRuleError none [.classNeg u] = none)
    ∧ (∀ (n : String) (args : TermList) (u : PTerm),
      mkRuleError (some (.pred n args)) [.classNeg u] = none) := by
  refine ⟨?_, ?_, ?_, ?_, ?_, ?_, ?_, ?_⟩ <;> intros <;> rfl

/-- C8: choice cardinality: `Choice(e).exactly(3)` renders as
`{ e } = 3`, `Choice(e).at_least(2)` alone renders as `2 { e }`, two set
bounds whose renderings agree collapse to the `=` form while differing
bounds render as `n { ... } m`, and calling `exactly` a second time (or
setting a bound of the same kind twice) raises an error. -/
theorem choice_cardinality_behavior (e : PTerm)
    (he : isChoiceElement e = true) :
    mkChoice e [] = .ok ⟨.cons e .nil .nil, .unset, .unset⟩
    ∧ ChoiceBuilder.exactly ⟨.cons e .nil .nil, .unset, .unset⟩ (.int 3)
        = .ok ⟨.cons e .nil .nil, .set (.num 3), .set (.num 3)⟩
    ∧ ChoiceBuilder.render ⟨.cons e .nil .nil, .set (.num 3), .set (.num 3)⟩
        = "\x7b " ++ renderD e ++ " \x7d = 3"
    ∧ ChoiceBuilder.atLeast ⟨.cons e .nil .nil, .unset, .unset⟩ (.int 2)
        = .ok ⟨.cons e .nil .nil, .set (.num 2), .unset⟩
    ∧ ChoiceBuilder.render ⟨.cons e .nil .nil, .set (.num 2), .unset⟩
        = "2 \x7b " ++ renderD e ++ " \x7d"
    ∧ (∀ (els : ChoiceElems) (a b : PTerm), renderD a = renderD b →
        ChoiceBuilder.render ⟨els, .set a, .set b⟩
          = "\x7b " ++ renderChoiceElems els ++ " \x7d = " ++ renderD a)
    ∧ (∀ (els : ChoiceElems) (a b : PTerm), renderD a ≠ renderD b →
        ChoiceBuilder.render ⟨els, .set a, .set b⟩
          = renderD a ++ " \x7b " ++ renderChoiceElems els ++ " \x7d "
            ++ renderD b)
    ∧ (∀ (els : ChoiceElems) (v : PTerm) (mx : OptCard) (c : CardInput),
        ∃ msg, ChoiceBuilder.exactly ⟨els, .set v, mx⟩ c = .error msg)
    ∧ (∀ (els : ChoiceElems) (mn : OptCard) (w : PTerm) (c : CardInput),
        ∃ msg, ChoiceBuilder.exactly ⟨els, mn, .set w⟩ c = .error msg)
    ∧ (∀ (els : ChoiceElems) (v : PTerm) (mx : OptCard) (c : CardInput),
        ∃ msg, ChoiceBuilder.atLeast ⟨els, .set v, mx⟩ c = .error msg)
    ∧ (∀ (els : ChoiceElems) (mn : OptCard) (w : PTerm) (c : CardInput),
        ∃ msg, ChoiceBuilder.atMost ⟨els, mn, .set w⟩ c = .error msg) := by
  refine ⟨?_, rfl, ?_, rfl, ?_, ?_, ?_, ?_, ?_, ?_, ?_⟩
  · simp [mkChoice, ChoiceBuilder.add, he, appendChoiceElem, toTermList]
  · rw [show ChoiceBuilder.render
        ⟨.cons e .nil .nil, .set (.num 3), .set (.num 3)⟩
        = "" ++ "\x7b " ++ renderD e ++ " \x7d" ++ (" = " ++ "3") from rfl]
    apply String.ext
    simp [String.data_append]
  · rw [show ChoiceBuilder.render ⟨.cons e .nil .nil, .set (.num 2), .unset⟩
        = ("2" ++ " ") ++ "\x7b " ++ renderD e ++ " \x7d" ++ "" from rfl]
    apply String.ext
    simp [String.data_append]
  · intro els a b h
    have hb : (render a .default none false == render b .default none false)
        = true := beq_iff_eq.mpr h
    simp only [ChoiceBuilder.render, renderD, render, hb, if_true]
    apply String.ext
    simp [String.data_append]
  · intro els a b h
    have hb : (render a .default none false == render b .default none false)
        = false := by
      simp only [beq_eq_false_iff_ne, ne_eq]
      exact h
    simp only [ChoiceBuilder.render, renderD, render, hb, Bool.false_eq_true,
      if_false]
    apply String.ext
    simp [String.data_append]
  · intro els v mx c
    cases hv : validateCardinality c "Exact cardinality" with
    | error msg =>
        exact ⟨msg, by simp [ChoiceBuilder.exactly, hv, Bind.bind, Except.bind]⟩
    | ok val =>
        exact ⟨"Cardinality constraints are already set",
          by simp [ChoiceBuilder.exactly, hv, Bind.bind, Except.bind]⟩
  · intro els mn w c
    cases hv : validateCardinality c "Exact cardinality" with
    | error msg =>
        exact ⟨msg, by simp [ChoiceBuilder.exactly, hv, Bind.bind, Except.bind]⟩
    | ok val =>
        exact ⟨"Cardinality constraints are already set",
          by cases mn <;> simp [ChoiceBuilder.exactly, hv, Bind.bind, Except.bind]⟩
  · intro els v mx c
    cases hv : validateCardinality c "Minimum cardinality" with
    | error msg =>
        exact ⟨msg, by simp [ChoiceBuilder.atLeast, hv, Bind.bind, Except.bind]⟩
    | ok val =>
        exact ⟨"Minimum cardinality is already set",
          by simp [ChoiceBuilder.atLeast, hv, Bind.bind, Except.bind]⟩
  · intro els mn w c
    cases hv : validateCardinality c "Maximum cardinality" with
    | error msg =>
        exact ⟨msg, by simp [ChoiceBuilder.atMost, hv, Bind.bind, Except.bind]⟩
    | ok val =>
        exact ⟨"Maximum cardinality is already set",
          by simp [ChoiceBuilder.atMost, hv, Bind.bind, Except.bind]⟩

/-- Witness for C8 at the argument-free predicate `e`. -/
theorem choice_cardinality_behavior_witness :
    isChoiceElement (.pred "e" .nil) = true
    ∧ ChoiceBuilder.render
        ⟨.cons (.pred "e" .nil) .nil .nil, .set (.num 3), .set (.num 3)⟩
      = "\x7b " ++ renderD (.pred "e" .nil) ++ " \x7d = 3" :=
  ⟨rfl, (choice_cardinality_behavior (.pred "e" .nil) rfl).2.2.1⟩

/-- C9: the claim says segment names merge case-insensitively with
first-seen display casing.  Evaluating the code at the failing input of
the repository's own tests: after `add_segment("Symbols")`, adding
`"symbols"` succeeds instead of raising (the registry is keyed by the
exact string), a fact filed under `"symbols"` lands in a second, distinct
segment, and the rendered banner uses `str.title()` rather than the
first-seen casing (`"MyRules"` becomes `"Myrules"`). -/
theorem segment_handling_at_bug_input :
    ASPProgram.empty.addSegment "Symbols"
      = .ok { ASPProgram.empty with segments := [("Symbols", [])] }
    ∧ ({ ASPProgram.empty with
          segments := [("Symbols", [])] } : ASPProgram).addSegment "symbols"
      = .ok { ASPProgram.empty with
          segments := [("Symbols", []), ("symbols", [])] }
    ∧ (({ ASPProgram.empty with
          segments := [("Symbols", [])] } : ASPProgram).fact
        (.pred "test" (.cons (.num 2) .nil)) (some "symbols")).segments.map
        Prod.fst
      = ["Symbols", "symbols"]
    ∧ pythonTitle "MyRules" = "Myrules" :=
  ⟨rfl, rfl, rfl, rfl⟩

/-- C10 counterexample: the claim says `pool()` raises `ValueError` for an
empty range, but the step-1 path performs no emptiness check:
`pool(range(1, 1))` returns `RangePool(1, 0)` and raises nothing. -/
theorem pool_empty_step1_range_counterexample :
    poolFn (.rng 1 1 1) = .ok (.rangePool (.num 1) (.num 0))
    ∧ ∀ msg, poolFn (.rng 1 1 1) ≠ .error msg := by
  refine ⟨rfl, ?_⟩
  intro msg h
  rw [show poolFn (.rng 1 1 1) = .ok (.rangePool (.num 1) (.num 0)) from rfl]
    at h
  exact Except.noConfusion h

/-- C10 (amended): `pool()` maps any range with step 1 to
`RangePool(start, stop-1)` (including empty step-1 ranges, which yield the
degenerate pool without raising), so `Variable("X").in_(range(1, 6))`
yields a comparison rendering `X = 1..5`; a range with step other than 1
is enumerated into an `ExplicitPool` when non-empty; and `ValueError` is
raised for an empty list and for an empty range whose step is not 1. -/
theorem pool_conversion_amended :
    (∀ s e : Int, poolFn (.rng s e 1)
        = .ok (.rangePool (.num s) (.num (e - 1))))
    ∧ (varIn "X" (.rng 1 6 1)
          = .ok (.cmp (.var "X") .equal (.rangePool (.num 1) (.num 5)))
        ∧ renderD (.cmp (.var "X") .equal (.rangePool (.num 1) (.num 5)))
          = "X = 1..5")
    ∧ (∀ s e st : Int, st ≠ 1 → rangeElems s e st ≠ [] →
        poolFn (.rng s e st)
          = .ok (.explicitPool (toTermList ((rangeElems s e st).map
              PTerm.num))))
    ∧ (∀ s e st : Int, st ≠ 1 → rangeElems s e st = [] →
        poolFn (.rng s e st)
          = .error "Cannot create an empty pool from empty range")
    ∧ poolFn (.seq []) = .error "Cannot create an empty pool" := by
  refine ⟨fun s e => rfl, ⟨rfl, rfl⟩, ?_, ?_, rfl⟩
  · intro s e st hst hne
    have hb : (st == 1) = false := beq_eq_false_iff_ne.mpr hst
    cases hE : rangeElems s e st with
    | nil => exact absurd hE hne
    | cons x xs => simp [poolFn, hb, hE]
  · intro s e st hst hE
    have hb : (st == 1) = false := beq_eq_false_iff_ne.mpr hst
    simp [poolFn, hb, hE]

/-- Witness for C10 at `range(1, 10, 2)` (five elements) and
`range(1, 1, 2)` (empty, step 2). -/
theorem pool_conversion_amended_witness :
    poolFn (.rng 1 10 2)
      = .ok (.explicitPool (toTermList ([1, 3, 5, 7, 9].map PTerm.num)))
    ∧ poolFn (.rng 1 1 2)
      = .error "Cannot create an empty pool from empty range" := by
  constructor
  · have h := pool_conversion_amended.2.2.1 1 10 2 (by decide) (by decide)
    rw [show rangeElems 1 10 2 = [1, 3, 5, 7, 9] from rfl] at h
    exact h
  · exact pool_conversion_amended.2.2.2.1 1 1 2 (by decide) rfl

/-- C2: rendering fails with an error naming every offending constant
exactly when some referenced symbolic constant is unregistered; with every
referenced constant registered it succeeds; and the `#const` lines cover
only constants actually referenced somewhere in the program. -/
theorem render_constant_closure (p : ASPProgram) (now : String) :
    (p.unregistered ≠ [] →
      p.render now
        = .error ("Unregistered symbolic constants used in program: "
            ++ String.intercalate ", " p.unregistered))
    ∧ (∀ c, c ∈ p.usedConstants →
        (p.symbolicConstants.any fun nv => nv.1 == c) = false →
        c ∈ p.unregistered)
    ∧ (p.unregistered = [] →
        p.render now
          = .ok (String.intercalate "\n" (p.renderLines now) ++ "\n"))
    ∧ (∀ l, l ∈ p.constLines →
        ∃ n v, (n, v) ∈ p.symbolicConstants ∧ n ∈ p.usedConstants
          ∧ l = constLine n v) := by
  refine ⟨?_, ?_, ?_, ?_⟩
  · intro h
    have hne : p.unregistered.isEmpty = false := by
      cases hE : p.unregistered with
      | nil => exact absurd hE h
      | cons a l => rfl
    simp [ASPProgram.render, hne]
  · intro c hc hreg
    exact (mem_unregistered p c).mpr ⟨hc, hreg⟩
  · intro h
    simp [ASPProgram.render, h]
  · intro l hl
    simp only [ASPProgram.constLines, List.mem_map] at hl
    obtain ⟨nv, hmem, rfl⟩ := hl
    obtain ⟨hmem2, hcont⟩ := List.mem_filter.mp hmem
    exact ⟨nv.1, nv.2, hmem2, List.elem_iff.mp hcont, rfl⟩

/-- Witness for C2: the unregistered program fails naming `k`; the
registered one renders successfully. -/
theorem render_constant_closure_witness :
    progUnregistered.render "ts"
      = .error "Unregistered symbolic constants used in program: k"
    ∧ (∃ text, progRegistered.render "ts" = .ok text) := by
  constructor
  · have h := (render_constant_closure progUnregistered "ts").1 (by decide)
    exact h
  · exact ⟨_, (render_constant_closure progRegistered "ts").2.2.1 rfl⟩

end PyClingo

